import Mathlib

/-!
Verification of the web-automation engine (`src/web-automation-cli.js`).

The development shallowly embeds the automation core: the browser/page
state, the selector-fallback loops of `click_element`, `fill_form` and
`wait_for_element`, the result shaping of `analyze_form`, `take_screenshot`
and `scroll_page`, the lifecycle (`constructor`, `initialize`,
`close_browser`, `cleanup`), and the turn-bounded orchestration loop
configured by `runAutomation`.

Playwright page operations are modelled as explicit state transformers
returning `Except`: a rejected promise is `Except.error`, and the
`try`/`catch` blocks of the tools are the `match`es consuming those errors.
The page records its side effects (clicks, keystrokes, typed text, wheel
deltas, screenshot writes) in observation logs so that "the click happened
exactly once" and "no candidate after the first match is evaluated" are
statable.  Time (the per-candidate timeouts) is abstracted: a selector
either becomes actionable within its timeout or it does not, which the DOM
model records as membership in `actionable`.
-/

/-- JavaScript `a || b` on a nullable boolean (`options.headless || false`):
`null`/`undefined` and `false` are falsy. -/
def jsOrBool (v : Option Bool) (dflt : Bool) : Bool :=
  match v with
  | some b => if b then b else dflt
  | none => dflt

/-- JavaScript `a || b` on a nullable number (`options.slowMo || 1000`):
`null`/`undefined` and `0` are falsy, so a supplied `0` falls back to the
default. -/
def jsOrNum (v : Option Int) (dflt : Int) : Int :=
  match v with
  | some x => if x = 0 then dflt else x
  | none => dflt

/-- JavaScript `a || b` on a nullable string: `null`/`undefined` and the
empty string are falsy. -/
def jsOrString (v : Option String) (dflt : String) : String :=
  match v with
  | some s => if s = "" then dflt else s
  | none => dflt

/-- JavaScript `s.substring(0, n)`: the first `n` characters. -/
def jsSubstring (s : String) (n : Nat) : String :=
  ⟨s.data.take n⟩

/-- An `<input>`/`<textarea>`/`<select>` element as `analyze_form` reads it.
`visible` models `offsetParent !== null`. -/
structure InputEl where
  visible : Bool
  type : String
  name : String
  id : String
  placeholder : String
  className : String
deriving DecidableEq

/-- A `<button>`/`input[type="submit"]` element as `analyze_form` reads it.
`textContent` is nullable in the DOM, hence the `Option`. -/
structure ButtonEl where
  visible : Bool
  textContent : Option String
  type : String
  className : String
deriving DecidableEq

/-- An `a[href]` element as `analyze_form` reads it. -/
structure LinkEl where
  textContent : Option String
  href : String
deriving DecidableEq

/-- The document as the engine observes it: which selectors currently match
an actionable (present, visible) element, the page title, and the element
lists `analyze_form` queries. -/
structure Dom where
  actionable : List String
  title : String
  inputs : List InputEl
  buttons : List ButtonEl
  links : List LinkEl
deriving DecidableEq

/-- Does `sel` match an actionable element of `d`?  This is the abstraction
of `page.waitForSelector(sel, {timeout})` resolving within its timeout. -/
def actionableIn (d : Dom) (sel : String) : Bool :=
  d.actionable.contains sel

/-- The single Playwright page.  `isOpen` is false once the owning browser
has been closed.  The remaining fields are observation logs of the page's
side effects, in call order. -/
structure PageState where
  isOpen : Bool
  dom : Dom
  waits : List String
  clicks : List String
  pressed : List String
  typed : List (String × String)
  wheels : List (Int × Int)
  shots : List (String × Bool)
  navs : List String
deriving DecidableEq

/-- The Playwright browser handle; `connected` models `isConnected()`. -/
structure Browser where
  connected : Bool
deriving DecidableEq

/-- The engine's mutable fields: `this.browser` and `this.page`, both
`null` until `initialize` assigns them. -/
structure EngineState where
  browser : Option Browser
  page : Option PageState
deriving DecidableEq

/-- States reachable through the engine's own methods: no page without a
browser, and the page is open exactly while the browser is connected
(`browser.close()` closes its pages). -/
def EngineState.wf : EngineState → Bool
  | ⟨none, none⟩ => true
  | ⟨some b, some p⟩ => p.isOpen == b.connected
  | _ => false

/-- Is every page operation doomed (no page handle, or page closed)? -/
def pageGone (s : EngineState) : Bool :=
  match s.page with
  | none => true
  | some p => !p.isOpen

/-- `this.page.waitForSelector(sel, {timeout})`: rejects when the page
handle is `null` (a TypeError) or the page is closed; resolves when `sel`
matches an actionable element, otherwise rejects with a timeout.  The
attempted selector is recorded in `waits` (only when the page actually
evaluates it). -/
def pageWaitForSelector (s : EngineState) (sel : String) : EngineState × Except String Unit :=
  match s.page with
  | none => (s, Except.error "TypeError: Cannot read properties of null")
  | some p =>
    if p.isOpen then
      let p1 := { p with waits := p.waits ++ [sel] }
      if actionableIn p.dom sel then
        ({ s with page := some p1 }, Except.ok ())
      else
        ({ s with page := some p1 }, Except.error "Timeout exceeded waiting for selector")
    else
      (s, Except.error "Target page, context or browser has been closed")

/-- `this.page.click(sel)`: succeeds on an open page whose DOM has an
actionable element matching `sel`, recording the click. -/
def pageClick (s : EngineState) (sel : String) : EngineState × Except String Unit :=
  match s.page with
  | none => (s, Except.error "TypeError: Cannot read properties of null")
  | some p =>
    if p.isOpen then
      if actionableIn p.dom sel then
        ({ s with page := some { p with clicks := p.clicks ++ [sel] } }, Except.ok ())
      else
        (s, Except.error "Timeout exceeded waiting for element to be actionable")
    else
      (s, Except.error "Target page, context or browser has been closed")

/-- `this.page.keyboard.press(key)`: succeeds on any open page. -/
def pagePress (s : EngineState) (key : String) : EngineState × Except String Unit :=
  match s.page with
  | none => (s, Except.error "TypeError: Cannot read properties of null")
  | some p =>
    if p.isOpen then
      ({ s with page := some { p with pressed := p.pressed ++ [key] } }, Except.ok ())
    else
      (s, Except.error "Target page, context or browser has been closed")

/-- `this.page.type(sel, value, {delay})`: succeeds on an open page whose
DOM has an actionable element matching `sel`, recording the typed text. -/
def pageType (s : EngineState) (sel : String) (value : String) : EngineState × Except String Unit :=
  match s.page with
  | none => (s, Except.error "TypeError: Cannot read properties of null")
  | some p =>
    if p.isOpen then
      if actionableIn p.dom sel then
        ({ s with page := some { p with typed := p.typed ++ [(sel, value)] } }, Except.ok ())
      else
        (s, Except.error "Timeout exceeded waiting for element to be actionable")
    else
      (s, Except.error "Target page, context or browser has been closed")

/-- `this.page.mouse.wheel(x, y)`: succeeds on any open page, recording the
signed pixel delta. -/
def pageWheel (s : EngineState) (x y : Int) : EngineState × Except String Unit :=
  match s.page with
  | none => (s, Except.error "TypeError: Cannot read properties of null")
  | some p =>
    if p.isOpen then
      ({ s with page := some { p with wheels := p.wheels ++ [(x, y)] } }, Except.ok ())
    else
      (s, Except.error "Target page, context or browser has been closed")

/-- `this.page.screenshot({path, fullPage})`: succeeds on any open page,
recording the written path and the `fullPage` flag. -/
def pageScreenshot (s : EngineState) (path : String) (fullPage : Bool) : EngineState × Except String Unit :=
  match s.page with
  | none => (s, Except.error "TypeError: Cannot read properties of null")
  | some p =>
    if p.isOpen then
      ({ s with page := some { p with shots := p.shots ++ [(path, fullPage)] } }, Except.ok ())
    else
      (s, Except.error "Target page, context or browser has been closed")

/-- `this.page.goto(url, {waitUntil, timeout})`: succeeds on any open page,
recording the navigation. -/
def pageGoto (s : EngineState) (url : String) : EngineState × Except String Unit :=
  match s.page with
  | none => (s, Except.error "TypeError: Cannot read properties of null")
  | some p =>
    if p.isOpen then
      ({ s with page := some { p with navs := p.navs ++ [url] } }, Except.ok ())
    else
      (s, Except.error "Target page, context or browser has been closed")

/-- `this.page.title()`: the current document title, on an open page. -/
def pageTitle (s : EngineState) : EngineState × Except String String :=
  match s.page with
  | none => (s, Except.error "TypeError: Cannot read properties of null")
  | some p =>
    if p.isOpen then
      (s, Except.ok p.dom.title)
    else
      (s, Except.error "Target page, context or browser has been closed")

/-- The engine's configuration as the constructor fixes it. -/
structure EngineConfig where
  headless : Bool
  slowMo : Int
  timeout : Int
  screenshotPath : String
deriving DecidableEq

/-- The options object handed to `new WebAutomationEngine(options)`; every
field may be absent. -/
structure EngineOptions where
  headless : Option Bool
  slowMo : Option Int
  timeout : Option Int
  screenshotPath : Option String
deriving DecidableEq

/-- `WebAutomationEngine.constructor` (lines 40-44): each option falls back
to its default under JavaScript `||`, so falsy supplied values (`0`, `""`,
`false`, `null`) are replaced by the default. -/
def WebAutomationEngine_constructor (options : EngineOptions) : EngineConfig :=
  { headless := jsOrBool options.headless false
    slowMo := jsOrNum options.slowMo 1000
    timeout := jsOrNum options.timeout 30000
    screenshotPath := jsOrString options.screenshotPath "./screenshots" }

/-- A page as `browser.newPage()` returns it, with empty effect logs. -/
def freshPage (d : Dom) : PageState :=
  { isOpen := true, dom := d, waits := [], clicks := [], pressed := [],
    typed := [], wheels := [], shots := [], navs := [] }

/-- `WebAutomationEngine.initialize` on the success path: launches a
browser and assigns `this.browser` and `this.page` fresh connected/open
handles, whatever they held before.  `d` is the document the new page will
expose (navigation does not change the DOM model). -/
def engineLaunch (_s : EngineState) (d : Dom) : EngineState :=
  { browser := some { connected := true }, page := some (freshPage d) }

/-- `browser.close()` as Playwright specifies it: disconnects the browser
and closes all its pages; closing an already-closed browser resolves
without error. -/
def browserCloseAll (s : EngineState) : EngineState :=
  { browser := s.browser.map (fun _ => { connected := false })
    page := s.page.map (fun p => { p with isOpen := false }) }

/-- What one invocation of the `close_browser` tool produced: the engine
state after it, the tool's result string, and whether `browser.close()`
was actually invoked. -/
structure CloseOutcome where
  state : EngineState
  result : String
  closeCalled : Bool
deriving DecidableEq

/-- The `close_browser` tool (lines 344-355): `if (this.browser) await
this.browser.close();` then returns success text.  The guard checks only
that the handle exists, not that it is still connected; `browser.close()`
on a closed browser resolves, so the `catch` branch is unreachable. -/
def closeBrowser_execute (s : EngineState) : CloseOutcome :=
  match s.browser with
  | some _ =>
    { state := browserCloseAll s, result := "Browser closed successfully", closeCalled := true }
  | none =>
    { state := s, result := "Browser closed successfully", closeCalled := false }

/-- `WebAutomationEngine.cleanup` (lines 439-443): closes only when
`this.browser` exists and `isConnected()`; the Bool reports whether
`browser.close()` was invoked. -/
def cleanup (s : EngineState) : EngineState × Bool :=
  match s.browser with
  | some b => if b.connected then (browserCloseAll s, true) else (s, false)
  | none => (s, false)

/-- The `open_browser` tool (lines 88-103): `goto` then `title` inside one
`try`; any rejection becomes a `Navigation failed:` result string. -/
def openBrowser_execute (s : EngineState) (url : String) : EngineState × String :=
  match pageGoto s url with
  | (s1, Except.ok _) =>
    match pageTitle s1 with
    | (s2, Except.ok title) =>
      (s2, "Successfully navigated to " ++ url ++ ". Page title: \"" ++ title ++ "\"")
    | (s2, Except.error e) => (s2, "Navigation failed: " ++ e)
  | (s1, Except.error e) => (s1, "Navigation failed: " ++ e)

/-- `new Date().toISOString().replace(/[:.]/g, '-')` (line 118): every
colon and dot of the ISO-8601 timestamp becomes a hyphen. -/
def tsReplace (iso : String) : String :=
  ⟨iso.data.map (fun c => if c == ':' || c == '.' then '-' else c)⟩

/-- The filename built on lines 119-121:
`name ? `${name}-${timestamp}.png` : `screenshot-${timestamp}.png``.
`name` is tested for JavaScript truthiness, so a `null` **or empty** name
falls back to the literal `screenshot`. -/
def screenshotFilename (name : Option String) (timestamp : String) : String :=
  match name with
  | some n =>
    if n = "" then "screenshot-" ++ timestamp ++ ".png"
    else n ++ "-" ++ timestamp ++ ".png"
  | none => "screenshot-" ++ timestamp ++ ".png"

/-- The filename as claim C6 words it: the given name, or the literal
`screenshot` only when the name is absent, then the sanitized timestamp.
Stated from the claim's words, to be compared with `screenshotFilename`. -/
def claimedScreenshotFilename (name : Option String) (nowISO : String) : String :=
  (match name with | some n => n | none => "screenshot") ++ "-" ++ tsReplace nowISO ++ ".png"

/-- The `take_screenshot` tool (lines 116-135): builds the timestamped
filename, saves a viewport (`fullPage: false`) capture under the configured
directory, and returns a success message naming the file; any rejection
becomes a `Screenshot failed:` result. `nowISO` models `new Date().toISOString()`. -/
def takeScreenshot_execute (cfg : EngineConfig) (s : EngineState) (name : Option String)
    (nowISO : String) : EngineState × String :=
  let timestamp := tsReplace nowISO
  let filename := screenshotFilename name timestamp
  match pageScreenshot s (cfg.screenshotPath ++ "/" ++ filename) false with
  | (s1, Except.ok _) => (s1, "Screenshot saved as " ++ filename)
  | (s1, Except.error e) => (s1, "Screenshot failed: " ++ e)

/-- The candidate loop of `click_element` (lines 152-163): for each
selector in order, `try { waitForSelector; click; return success } catch
{ continue }`; after exhaustion, the failure string of line 166. -/
def clickElement_loop : EngineState → List String → String → EngineState × String
  | s, [], description => (s, "Failed to click " ++ description)
  | s, selector :: rest, description =>
    match pageWaitForSelector s selector with
    | (s1, Except.error _) => clickElement_loop s1 rest description
    | (s1, Except.ok _) =>
      match pageClick s1 selector with
      | (s2, Except.error _) => clickElement_loop s2 rest description
      | (s2, Except.ok _) =>
        (s2, "Successfully clicked " ++ description ++ " using " ++ selector)

/-- The `click_element` tool (lines 149-167). -/
def clickElement_execute (s : EngineState) (selectors : List String)
    (description : String) : EngineState × String :=
  clickElement_loop s selectors description

/-- One form field of a `fill_form` request. -/
structure FormField where
  name : String
  value : String
  selectors : List String
deriving DecidableEq

/-- The per-field selector loop of `fill_form` (lines 192-213): for each
candidate selector, `try { waitForSelector; click; press Control+A; press
Delete; type value; mark filled; break } catch { continue }`.  Returns
whether the field was filled. -/
def fillForm_tryField : EngineState → List String → String → EngineState × Bool
  | s, [], _ => (s, false)
  | s, selector :: rest, value =>
    match pageWaitForSelector s selector with
    | (s1, Except.error _) => fillForm_tryField s1 rest value
    | (s1, Except.ok _) =>
      match pageClick s1 selector with
      | (s2, Except.error _) => fillForm_tryField s2 rest value
      | (s2, Except.ok _) =>
        match pagePress s2 "Control+A" with
        | (s3, Except.error _) => fillForm_tryField s3 rest value
        | (s3, Except.ok _) =>
          match pagePress s3 "Delete" with
          | (s4, Except.error _) => fillForm_tryField s4 rest value
          | (s4, Except.ok _) =>
            match pageType s4 selector value with
            | (s5, Except.error _) => fillForm_tryField s5 rest value
            | (s5, Except.ok _) => (s5, true)

/-- The field loop of `fill_form` (lines 188-218), threading
`filledCount`; a field that could not be filled only logs a warning and
the loop proceeds to the next field. -/
def fillForm_loop : EngineState → List FormField → Nat → EngineState × Nat
  | s, [], filledCount => (s, filledCount)
  | s, field :: rest, filledCount =>
    match fillForm_tryField s field.selectors field.value with
    | (s1, true) => fillForm_loop s1 rest (filledCount + 1)
    | (s1, false) => fillForm_loop s1 rest filledCount

/-- The `fill_form` tool (lines 184-221): fills each field independently
and returns `Filled <count>/<total> form fields`. -/
def fillForm_execute (s : EngineState) (fields : List FormField) : EngineState × String :=
  match fillForm_loop s fields 0 with
  | (s1, filledCount) =>
    (s1, "Filled " ++ toString filledCount ++ "/" ++ toString fields.length ++ " form fields")

/-- Does the field have at least one selector resolving to an actionable
element of `d`? -/
def resolvableField (d : Dom) (f : FormField) : Bool :=
  f.selectors.any (actionableIn d)

/-- The `page.type` call `fill_form` makes for a resolvable field: its
first matching selector paired with the field's value. -/
def fieldFillEntry (d : Dom) (f : FormField) : Option (String × String) :=
  (f.selectors.find? (actionableIn d)).map (fun sel => (sel, f.value))

/-- One entry of the condensed `inputs` list of `analyze_form`. -/
structure InputSummary where
  type : String
  name : String
  id : String
  placeholder : String
  className : String
deriving DecidableEq

/-- One entry of the condensed `buttons` list of `analyze_form`. -/
structure ButtonSummary where
  text : String
  type : String
  className : String
deriving DecidableEq

/-- One entry of the condensed `links` list of `analyze_form`. -/
structure LinkSummary where
  text : String
  href : String
deriving DecidableEq

/-- The condensed structural summary `analyze_form` returns. -/
structure FormAnalysis where
  inputs : List InputSummary
  buttons : List ButtonSummary
  links : List LinkSummary
deriving DecidableEq

/-- `x.textContent?.trim() || ''`: null text becomes the empty string,
otherwise the text is trimmed. -/
def textOrEmpty (t : Option String) : String :=
  match t with
  | some s => s.trim
  | none => ""

/-- `className?.split(' ')[0] || ''`: only the first class name. -/
def firstClass (className : String) : String :=
  jsOrString (some ((className.splitOn " ").headD "")) ""

/-- The callback `analyze_form` runs inside `page.evaluate` (lines
233-275): inputs filtered to visible ones and capped at 10, buttons
filtered to visible ones, capped at 5, text truncated to 50 characters,
links filtered to non-empty text shorter than 50 characters and capped at
10, hrefs truncated to 100 characters. -/
def analyzeForm_evaluate (d : Dom) : FormAnalysis :=
  { inputs :=
      ((d.inputs.filter (fun input => input.visible)).take 10).map (fun input =>
        { type := jsOrString (some input.type) "text"
          name := jsOrString (some input.name) ""
          id := jsOrString (some input.id) ""
          placeholder := jsOrString (some input.placeholder) ""
          className := firstClass input.className })
    buttons :=
      ((d.buttons.filter (fun btn => btn.visible)).take 5).map (fun button =>
        { text := jsSubstring (textOrEmpty button.textContent) 50
          type := jsOrString (some button.type) ""
          className := firstClass button.className })
    links :=
      ((d.links.filter (fun link =>
          let text := textOrEmpty link.textContent
          decide (0 < text.length) && decide (text.length < 50))).take 10).map (fun link =>
        { text := textOrEmpty link.textContent
          href := jsOrString (some (jsSubstring link.href 100)) "" }) }

/-- The result of the `analyze_form` tool: the summary, or the error
object `{error: ...}` built in the `catch` branch. -/
inductive AnalyzeResult where
  | ok (analysis : FormAnalysis)
  | err (message : String)
deriving DecidableEq

/-- `this.page.evaluate(callback)`: runs the analysis callback against the
live document of an open page. -/
def pageEvaluate (s : EngineState) : EngineState × Except String FormAnalysis :=
  match s.page with
  | none => (s, Except.error "TypeError: Cannot read properties of null")
  | some p =>
    if p.isOpen then
      (s, Except.ok (analyzeForm_evaluate p.dom))
    else
      (s, Except.error "Target page, context or browser has been closed")

/-- The `analyze_form` tool (lines 229-288). -/
def analyzeForm_execute (s : EngineState) : EngineState × AnalyzeResult :=
  match pageEvaluate s with
  | (s1, Except.ok a) => (s1, AnalyzeResult.ok a)
  | (s1, Except.error e) => (s1, AnalyzeResult.err ("Form analysis failed: " ++ e))

/-- The candidate loop of `wait_for_element` (lines 298-311); the
caller-supplied timeout is abstracted into `actionableIn`. -/
def waitForElement_execute : EngineState → List String → EngineState × String
  | s, [] => (s, "No elements found")
  | s, selector :: rest =>
    match pageWaitForSelector s selector with
    | (s1, Except.ok _) => (s1, "Element found: " ++ selector)
    | (s1, Except.error _) => waitForElement_execute s1 rest

/-- Scroll directions of `scroll_page`. -/
inductive ScrollDirection where
  | up
  | down
  | left
  | right
deriving DecidableEq

/-- The direction's name, as it appears in the result string. -/
def ScrollDirection.asString : ScrollDirection → String
  | .up => "up"
  | .down => "down"
  | .left => "left"
  | .right => "right"

/-- The `scrollMap` of lines 323-328: direction to signed pixel delta. -/
def scrollMap (direction : ScrollDirection) (amount : Int) : Int × Int :=
  match direction with
  | .down => (0, amount)
  | .up => (0, -amount)
  | .right => (amount, 0)
  | .left => (-amount, 0)

/-- The `scroll_page` tool (lines 321-337). -/
def scrollPage_execute (s : EngineState) (direction : ScrollDirection)
    (amount : Int) : EngineState × String :=
  match scrollMap direction amount with
  | (x, y) =>
    match pageWheel s x y with
    | (s1, Except.ok _) =>
      (s1, "Scrolled " ++ direction.asString ++ " by " ++ toString amount ++ "px")
    | (s1, Except.error e) => (s1, "Scroll failed: " ++ e)

/-- The lifecycle states of the spec's BrowserSession. -/
inductive SessionState where
  | Uninitialized
  | Ready
  | Closed
deriving DecidableEq

/-- The session state an engine state denotes: no browser handle is
Uninitialized, a connected one Ready, a disconnected one Closed. -/
def sessionState (s : EngineState) : SessionState :=
  match s.browser with
  | none => SessionState.Uninitialized
  | some b => if b.connected then SessionState.Ready else SessionState.Closed

/-- The engine's operations, for lifecycle statements: `initialize`, the
eight tools, and `cleanup`. -/
inductive Op where
  | opLaunch (d : Dom)
  | opOpenBrowser (url : String)
  | opTakeScreenshot (name : Option String) (nowISO : String)
  | opClickElement (selectors : List String) (description : String)
  | opFillForm (fields : List FormField)
  | opAnalyzeForm
  | opWaitForElement (selectors : List String)
  | opScrollPage (direction : ScrollDirection) (amount : Int)
  | opCloseBrowser
  | opCleanup
deriving DecidableEq

/-- Is the operation `initialize`? -/
def Op.isLaunch : Op → Bool
  | .opLaunch _ => true
  | _ => false

/-- Is the operation `close_browser` or `cleanup`? -/
def Op.isClose : Op → Bool
  | .opCloseBrowser => true
  | .opCleanup => true
  | _ => false

/-- The state transition each operation performs. -/
def stepState (cfg : EngineConfig) (s : EngineState) : Op → EngineState
  | .opLaunch d => engineLaunch s d
  | .opOpenBrowser url => (openBrowser_execute s url).1
  | .opTakeScreenshot name nowISO => (takeScreenshot_execute cfg s name nowISO).1
  | .opClickElement selectors description => (clickElement_execute s selectors description).1
  | .opFillForm fields => (fillForm_execute s fields).1
  | .opAnalyzeForm => (analyzeForm_execute s).1
  | .opWaitForElement selectors => (waitForElement_execute s selectors).1
  | .opScrollPage direction amount => (scrollPage_execute s direction amount).1
  | .opCloseBrowser => (closeBrowser_execute s).state
  | .opCleanup => (cleanup s).1

/-- Modelled from the spec: one decision of the reasoning engine, which
"returns either a tool invocation request or a final answer" (section
4.3); the engine itself is external to the repository. -/
inductive Decision where
  | toolCall (name : String) (params : String)
  | finalAnswer (answer : String)

/-- Is the decision a tool call? -/
def Decision.isToolCall : Decision → Bool
  | .toolCall _ _ => true
  | .finalAnswer _ => false

/-- Modelled from the spec: the two terminal modes of the orchestration
loop, "Completed" with a final answer or "Aborted" at the turn bound with
the partial history. -/
inductive RunOutcome where
  | Completed (answer : String) (history : List (String × String))
  | Aborted (history : List (String × String))

/-- The (action, result) history an outcome carries. -/
def RunOutcome.history : RunOutcome → List (String × String)
  | .Completed _ h => h
  | .Aborted h => h

/-- One dispatch per history entry: how many tool-invocation turns a run
performed. -/
def numDispatches (o : RunOutcome) : Nat :=
  o.history.length

/-- Modelled from the spec: the bounded turn loop of the AgentOrchestrator
(section 4.3).  The loop body lives in the external agents library's
`Runner`, which `runAutomation` (lines 422-436) only configures; the spec
is its authority here.  Each turn submits the history to the reasoning
engine; a tool call is dispatched and its (invocation, result) pair
appended to history, consuming one unit of the turn budget; a final answer
completes the run; an exhausted budget aborts it with the partial
history. -/
def runnerLoop (oracle : List (String × String) → Decision)
    (dispatch : String → String → String) :
    Nat → List (String × String) → RunOutcome
  | 0, history => RunOutcome.Aborted history
  | fuel + 1, history =>
    match oracle history with
    | Decision.finalAnswer a => RunOutcome.Completed a history
    | Decision.toolCall n ps => runnerLoop oracle dispatch fuel (history ++ [(n, dispatch n ps)])

/-- `options.maxTurns || 25` (line 424): the turn bound `runAutomation`
hands the Runner; an absent (or zero, JavaScript falsiness) option falls
back to 25. -/
def runAutomation_maxTurns (optMaxTurns : Option Nat) : Nat :=
  match optMaxTurns with
  | some m => if m = 0 then 25 else m
  | none => 25

/-- `WebAutomationEngine.runAutomation` as orchestration: runs the bounded
turn loop with the configured turn budget over an empty history. -/
def runAutomation (oracle : List (String × String) → Decision)
    (dispatch : String → String → String) (optMaxTurns : Option Nat) : RunOutcome :=
  runnerLoop oracle dispatch (runAutomation_maxTurns optMaxTurns) []

/-- A concrete DOM for witnesses: one actionable submit button. -/
def dom0 : Dom :=
  { actionable := ["button.submit"]
    title := "Example Domain"
    inputs := []
    buttons := []
    links := [] }

/-- A concrete configuration for witnesses (the constructor's defaults). -/
def cfg0 : EngineConfig :=
  WebAutomationEngine_constructor
    { headless := none, slowMo := none, timeout := none, screenshotPath := none }

/-- A concrete Ready engine state for witnesses. -/
def st0 : EngineState :=
  engineLaunch { browser := none, page := none } dom0

/-- A concrete Closed engine state: `st0` after the `close_browser` tool. -/
def closedState : EngineState :=
  (closeBrowser_execute st0).state

/-- A reasoning oracle that emits a tool call at every turn, for the
turn-bound scenario. -/
def oracle0 : List (String × String) → Decision :=
  fun _ => Decision.toolCall "open_browser" "https://example.com"

/-- A dispatcher returning a fixed result, for the turn-bound scenario. -/
def dispatch0 : String → String → String :=
  fun _ _ => "ok"

/-- Concrete form fields for witnesses: the first resolves through its
second candidate, the second resolves nowhere. -/
def fields0 : List FormField :=
  [{ name := "email", value := "john@example.com", selectors := ["#no-such", "button.submit"] },
   { name := "phone", value := "555-0100", selectors := ["#absent"] }]

/-! ## Lemmas about the page primitives -/

/-- A JavaScript substring never exceeds its requested length. -/
theorem jsSubstring_length_le (s : String) (n : Nat) : (jsSubstring s n).length ≤ n := by
  have h : (jsSubstring s n).length = (List.take n s.data).length := rfl
  rw [h, List.length_take]
  omega

/-- On a Ready page, `waitForSelector` records the attempted selector and
resolves exactly when the selector is actionable. -/
theorem pageWaitForSelector_ready (s : EngineState) (p : PageState) (sel : String)
    (hp : s.page = some p) (ho : p.isOpen = true) :
    pageWaitForSelector s sel =
      ({ s with page := some { p with waits := p.waits ++ [sel] } },
       if actionableIn p.dom sel then Except.ok ()
       else Except.error "Timeout exceeded waiting for selector") := by
  cases h : actionableIn p.dom sel <;> simp [pageWaitForSelector, hp, ho, h]

/-- On a Ready page with an actionable selector, `click` records the click. -/
theorem pageClick_ready_ok (s : EngineState) (p : PageState) (sel : String)
    (hp : s.page = some p) (ho : p.isOpen = true) (ha : actionableIn p.dom sel = true) :
    pageClick s sel =
      ({ s with page := some { p with clicks := p.clicks ++ [sel] } }, Except.ok ()) := by
  simp [pageClick, hp, ho, ha]

/-- On a Ready page, `keyboard.press` records the key. -/
theorem pagePress_ready (s : EngineState) (p : PageState) (key : String)
    (hp : s.page = some p) (ho : p.isOpen = true) :
    pagePress s key =
      ({ s with page := some { p with pressed := p.pressed ++ [key] } }, Except.ok ()) := by
  simp [pagePress, hp, ho]

/-- On a Ready page with an actionable selector, `type` records the text. -/
theorem pageType_ready_ok (s : EngineState) (p : PageState) (sel value : String)
    (hp : s.page = some p) (ho : p.isOpen = true) (ha : actionableIn p.dom sel = true) :
    pageType s sel value =
      ({ s with page := some { p with typed := p.typed ++ [(sel, value)] } }, Except.ok ()) := by
  simp [pageType, hp, ho, ha]

/-- On a Ready page, `mouse.wheel` records the delta. -/
theorem pageWheel_ready (s : EngineState) (p : PageState) (x y : Int)
    (hp : s.page = some p) (ho : p.isOpen = true) :
    pageWheel s x y =
      ({ s with page := some { p with wheels := p.wheels ++ [(x, y)] } }, Except.ok ()) := by
  simp [pageWheel, hp, ho]

/-- On a Ready page, `screenshot` records the written file. -/
theorem pageScreenshot_ready (s : EngineState) (p : PageState) (path : String) (fullPage : Bool)
    (hp : s.page = some p) (ho : p.isOpen = true) :
    pageScreenshot s path fullPage =
      ({ s with page := some { p with shots := p.shots ++ [(path, fullPage)] } }, Except.ok ()) := by
  simp [pageScreenshot, hp, ho]

/-- On a gone page (no handle, or closed), `waitForSelector` rejects and
leaves the state untouched. -/
theorem pageWaitForSelector_gone (s : EngineState) (sel : String) (h : pageGone s = true) :
    ∃ e, pageWaitForSelector s sel = (s, Except.error e) := by
  match hs : s.page with
  | none =>
    exact ⟨"TypeError: Cannot read properties of null", by simp [pageWaitForSelector, hs]⟩
  | some p =>
    have hop : p.isOpen = false := by simpa [pageGone, hs] using h
    exact ⟨"Target page, context or browser has been closed",
      by simp [pageWaitForSelector, hs, hop]⟩

/-- On a gone page, `click` rejects and leaves the state untouched. -/
theorem pageClick_gone (s : EngineState) (sel : String) (h : pageGone s = true) :
    ∃ e, pageClick s sel = (s, Except.error e) := by
  match hs : s.page with
  | none =>
    exact ⟨"TypeError: Cannot read properties of null", by simp [pageClick, hs]⟩
  | some p =>
    have hop : p.isOpen = false := by simpa [pageGone, hs] using h
    exact ⟨"Target page, context or browser has been closed", by simp [pageClick, hs, hop]⟩

/-- On a gone page, `mouse.wheel` rejects and leaves the state untouched. -/
theorem pageWheel_gone (s : EngineState) (x y : Int) (h : pageGone s = true) :
    ∃ e, pageWheel s x y = (s, Except.error e) := by
  match hs : s.page with
  | none =>
    exact ⟨"TypeError: Cannot read properties of null", by simp [pageWheel, hs]⟩
  | some p =>
    have hop : p.isOpen = false := by simpa [pageGone, hs] using h
    exact ⟨"Target page, context or browser has been closed", by simp [pageWheel, hs, hop]⟩

/-- On a gone page, `screenshot` rejects and leaves the state untouched. -/
theorem pageScreenshot_gone (s : EngineState) (path : String) (fullPage : Bool)
    (h : pageGone s = true) :
    ∃ e, pageScreenshot s path fullPage = (s, Except.error e) := by
  match hs : s.page with
  | none =>
    exact ⟨"TypeError: Cannot read properties of null", by simp [pageScreenshot, hs]⟩
  | some p =>
    have hop : p.isOpen = false := by simpa [pageGone, hs] using h
    exact ⟨"Target page, context or browser has been closed",
      by simp [pageScreenshot, hs, hop]⟩

/-- On a gone page, `goto` rejects and leaves the state untouched. -/
theorem pageGoto_gone (s : EngineState) (url : String) (h : pageGone s = true) :
    ∃ e, pageGoto s url = (s, Except.error e) := by
  match hs : s.page with
  | none =>
    exact ⟨"TypeError: Cannot read properties of null", by simp [pageGoto, hs]⟩
  | some p =>
    have hop : p.isOpen = false := by simpa [pageGone, hs] using h
    exact ⟨"Target page, context or browser has been closed", by simp [pageGoto, hs, hop]⟩

/-- On a gone page, `evaluate` rejects and leaves the state untouched. -/
theorem pageEvaluate_gone (s : EngineState) (h : pageGone s = true) :
    ∃ e, pageEvaluate s = (s, Except.error e) := by
  match hs : s.page with
  | none =>
    exact ⟨"TypeError: Cannot read properties of null", by simp [pageEvaluate, hs]⟩
  | some p =>
    have hop : p.isOpen = false := by simpa [pageGone, hs] using h
    exact ⟨"Target page, context or browser has been closed", by simp [pageEvaluate, hs, hop]⟩

/-! ## The candidate-fallback loop of click_element / wait_for_element -/

/-- When exactly one candidate matches (the filter of the candidate list is
`[m]`), the click loop stops at `m`: it evaluates exactly the non-matching
prefix plus `m`, clicks exactly once, and reports `m`. -/
theorem clickElement_loop_found :
    ∀ (sels : List String) (s : EngineState) (p : PageState) (description m : String),
      s.page = some p → p.isOpen = true →
      sels.filter (fun c => actionableIn p.dom c) = [m] →
      (clickElement_loop s sels description).2 =
        "Successfully clicked " ++ description ++ " using " ++ m
      ∧ ∃ p2, (clickElement_loop s sels description).1.page = some p2
          ∧ p2.isOpen = true ∧ p2.dom = p.dom
          ∧ p2.clicks = p.clicks ++ [m]
          ∧ p2.waits = p.waits ++ (sels.takeWhile (fun c => !actionableIn p.dom c) ++ [m]) := by
  intro sels
  induction sels with
  | nil =>
    intro s p description m hp ho hf
    simp at hf
  | cons c rest ih =>
    intro s p description m hp ho hf
    cases hac : actionableIn p.dom c with
    | true =>
      have hcm : c = m := by
        have := hf
        simp [List.filter_cons, hac] at this
        exact this.1
      subst hcm
      have hw := pageWaitForSelector_ready s p c hp ho
      have hc := pageClick_ready_ok { s with page := some { p with waits := p.waits ++ [c] } }
        { p with waits := p.waits ++ [c] } c rfl ho hac
      rw [clickElement_loop, hw]
      simp only [hac, if_true]
      rw [hc]
      refine ⟨rfl, ⟨{ p with waits := p.waits ++ [c], clicks := p.clicks ++ [c] }, rfl,
        ho, rfl, rfl, ?_⟩⟩
      simp [List.takeWhile_cons, hac]
    | false =>
      have hf2 : rest.filter (fun x => actionableIn p.dom x) = [m] := by
        simpa [List.filter_cons, hac] using hf
      have hw := pageWaitForSelector_ready s p c hp ho
      rw [clickElement_loop, hw]
      simp only [hac, if_false]
      obtain ⟨hres, p2, hpage, hopen, hdom, hclicks, hwaits⟩ :=
        ih { s with page := some { p with waits := p.waits ++ [c] } }
          { p with waits := p.waits ++ [c] } description m rfl ho hf2
      refine ⟨hres, ⟨p2, hpage, hopen, hdom, hclicks, ?_⟩⟩
      rw [hwaits]
      simp [List.takeWhile_cons, hac]

/-- When no candidate matches, the click loop exhausts the list, clicks
nothing, types nothing, and returns the failure string. -/
theorem clickElement_loop_nomatch :
    ∀ (sels : List String) (s : EngineState) (p : PageState) (description : String),
      s.page = some p → p.isOpen = true →
      (∀ c ∈ sels, actionableIn p.dom c = false) →
      (clickElement_loop s sels description).2 = "Failed to click " ++ description
      ∧ ∃ p2, (clickElement_loop s sels description).1.page = some p2
          ∧ p2.isOpen = true ∧ p2.dom = p.dom
          ∧ p2.clicks = p.clicks
          ∧ p2.typed = p.typed := by
  intro sels
  induction sels with
  | nil =>
    intro s p description hp ho _
    exact ⟨rfl, ⟨p, by simpa [clickElement_loop] using hp, ho, rfl, rfl, rfl⟩⟩
  | cons c rest ih =>
    intro s p description hp ho hnone
    have hac : actionableIn p.dom c = false := hnone c (List.mem_cons_self c rest)
    have hw := pageWaitForSelector_ready s p c hp ho
    rw [clickElement_loop, hw]
    simp only [hac, if_false]
    obtain ⟨hres, p2, hpage, hopen, hdom, hclicks, htyped⟩ :=
      ih { s with page := some { p with waits := p.waits ++ [c] } }
        { p with waits := p.waits ++ [c] } description rfl ho
        (fun x hx => hnone x (List.mem_cons_of_mem c hx))
    exact ⟨hres, ⟨p2, hpage, hopen, hdom, hclicks, htyped⟩⟩

/-- When no candidate matches, the wait loop exhausts the list and returns
the not-found string with the page effects untouched. -/
theorem waitForElement_nomatch :
    ∀ (sels : List String) (s : EngineState) (p : PageState),
      s.page = some p → p.isOpen = true →
      (∀ c ∈ sels, actionableIn p.dom c = false) →
      (waitForElement_execute s sels).2 = "No elements found"
      ∧ ∃ p2, (waitForElement_execute s sels).1.page = some p2
          ∧ p2.isOpen = true ∧ p2.dom = p.dom
          ∧ p2.clicks = p.clicks
          ∧ p2.typed = p.typed := by
  intro sels
  induction sels with
  | nil =>
    intro s p hp ho _
    exact ⟨rfl, ⟨p, by simpa [waitForElement_execute] using hp, ho, rfl, rfl, rfl⟩⟩
  | cons c rest ih =>
    intro s p hp ho hnone
    have hac : actionableIn p.dom c = false := hnone c (List.mem_cons_self c rest)
    have hw := pageWaitForSelector_ready s p c hp ho
    rw [waitForElement_execute, hw]
    simp only [hac, if_false]
    obtain ⟨hres, p2, hpage, hopen, hdom, hclicks, htyped⟩ :=
      ih { s with page := some { p with waits := p.waits ++ [c] } }
        { p with waits := p.waits ++ [c] } rfl ho
        (fun x hx => hnone x (List.mem_cons_of_mem c hx))
    exact ⟨hres, ⟨p2, hpage, hopen, hdom, hclicks, htyped⟩⟩

/-- C1: for every ordered candidate-selector list in which exactly one
candidate matches an actionable element of the live page, the fallback loop
of `click_element` tries candidates strictly in the list's order (the
evaluated selectors are exactly the non-matching prefix followed by the
match), returns the first (unique) matching candidate in its success
message, performs the dependent click exactly once (the click log grows by
exactly that one selector), and evaluates no candidate after the match. -/
theorem clickElement_fallback_correct (s : EngineState) (p : PageState)
    (selectors : List String) (description m : String)
    (hp : s.page = some p) (ho : p.isOpen = true)
    (huniq : selectors.filter (fun c => actionableIn p.dom c) = [m]) :
    (clickElement_execute s selectors description).2 =
      "Successfully clicked " ++ description ++ " using " ++ m
    ∧ ∃ p2, (clickElement_execute s selectors description).1.page = some p2
        ∧ p2.clicks = p.clicks ++ [m]
        ∧ p2.waits = p.waits ++
            (selectors.takeWhile (fun c => !actionableIn p.dom c) ++ [m]) := by
  obtain ⟨hres, p2, hpage, _, _, hclicks, hwaits⟩ :=
    clickElement_loop_found selectors s p description m hp ho huniq
  exact ⟨hres, ⟨p2, hpage, hclicks, hwaits⟩⟩

/-- Witness for C1: on a page whose only actionable element is
`button.submit`, the candidate list `["#missing", "button.submit"]` clicks
the second candidate and reports it. -/
theorem clickElement_fallback_correct_witness :
    (clickElement_execute st0 ["#missing", "button.submit"] "the submit button").2 =
      "Successfully clicked the submit button using button.submit" :=
  (clickElement_fallback_correct st0 (freshPage dom0) ["#missing", "button.submit"]
    "the submit button" "button.submit" (by decide) (by decide) (by decide)).1

/-- C4: when no candidate matches, the fallback loops of `click_element`
and `wait_for_element` exhaust all candidates without raising (both are
total functions into plain result strings; the per-candidate rejections are
consumed by the loop), the dependent click never happens, and each tool
returns its descriptive failure string as a normal result. -/
theorem selector_exhaustion_nonfatal (s : EngineState) (p : PageState)
    (selectors : List String) (description : String)
    (hp : s.page = some p) (ho : p.isOpen = true)
    (hnone : ∀ c ∈ selectors, actionableIn p.dom c = false) :
    (clickElement_execute s selectors description).2 = "Failed to click " ++ description
    ∧ (∃ p2, (clickElement_execute s selectors description).1.page = some p2
        ∧ p2.clicks = p.clicks)
    ∧ (waitForElement_execute s selectors).2 = "No elements found" := by
  obtain ⟨hres, p2, hpage, _, _, hclicks, _⟩ :=
    clickElement_loop_nomatch selectors s p description hp ho hnone
  obtain ⟨hres2, _⟩ := waitForElement_nomatch selectors s p hp ho hnone
  exact ⟨hres, ⟨p2, hpage, hclicks⟩, hres2⟩

/-- Witness for C4: two never-matching candidates are exhausted and both
tools report failure as normal results. -/
theorem selector_exhaustion_nonfatal_witness :
    (clickElement_execute st0 ["#nope", ".also-nope"] "a ghost element").2 =
      "Failed to click a ghost element"
    ∧ (∃ p2, (clickElement_execute st0 ["#nope", ".also-nope"] "a ghost element").1.page = some p2
        ∧ p2.clicks = (freshPage dom0).clicks)
    ∧ (waitForElement_execute st0 ["#nope", ".also-nope"]).2 = "No elements found" :=
  selector_exhaustion_nonfatal st0 (freshPage dom0) ["#nope", ".also-nope"]
    "a ghost element" (by decide) (by decide) (by decide)


/-! ## The per-field fallback of fill_form -/

/-- The per-field loop fills the field exactly when some candidate is
actionable, typing the value through the first matching candidate; the
page's DOM and open flag are untouched. -/
theorem fillForm_tryField_spec :
    ∀ (sels : List String) (s : EngineState) (p : PageState) (value : String),
      s.page = some p → p.isOpen = true →
      (fillForm_tryField s sels value).2 = sels.any (fun c => actionableIn p.dom c)
      ∧ ∃ p2, (fillForm_tryField s sels value).1.page = some p2
          ∧ p2.isOpen = true ∧ p2.dom = p.dom
          ∧ p2.typed = p.typed ++
              (((sels.find? (fun c => actionableIn p.dom c)).map
                  (fun sel => (sel, value))).toList) := by
  intro sels
  induction sels with
  | nil =>
    intro s p value hp ho
    exact ⟨by simp [fillForm_tryField], ⟨p, by simpa [fillForm_tryField] using hp, ho, rfl,
      by simp [fillForm_tryField]⟩⟩
  | cons c rest ih =>
    intro s p value hp ho
    cases hac : actionableIn p.dom c with
    | true =>
      constructor
      · simp [fillForm_tryField, pageWaitForSelector, pageClick, pagePress, pageType,
          hp, ho, hac]
      · exact ⟨{ p with
            waits := p.waits ++ [c]
            clicks := p.clicks ++ [c]
            pressed := p.pressed ++ ["Control+A"] ++ ["Delete"]
            typed := p.typed ++ [(c, value)] },
          by simp [fillForm_tryField, pageWaitForSelector, pageClick, pagePress, pageType,
            hp, ho, hac],
          ho, rfl,
          by simp [List.find?_cons, hac]⟩
    | false =>
      have hw := pageWaitForSelector_ready s p c hp ho
      have hconv : fillForm_tryField s (c :: rest) value =
          fillForm_tryField { s with page := some { p with waits := p.waits ++ [c] } }
            rest value := by
        rw [fillForm_tryField, hw, hac]
        rfl
      obtain ⟨hres, p2, hpage, hopen, hdom, htyped⟩ :=
        ih { s with page := some { p with waits := p.waits ++ [c] } }
          { p with waits := p.waits ++ [c] } value rfl ho
      rw [hconv]
      refine ⟨?_, ⟨p2, hpage, hopen, hdom, ?_⟩⟩
      · rw [hres]
        simp [List.any_cons, hac]
      · rw [htyped]
        simp [List.find?_cons, hac]

/-- The field loop fills exactly the resolvable fields: the count grows by
the number of resolvable fields, and the typed log grows by exactly one
entry per resolvable field (its first matching selector with its value), in
field order — a failing field leaves the processing of the remaining fields
unaffected. -/
theorem fillForm_loop_spec :
    ∀ (fields : List FormField) (s : EngineState) (p : PageState) (n : Nat),
      s.page = some p → p.isOpen = true →
      (fillForm_loop s fields n).2 = n + fields.countP (fun f => resolvableField p.dom f)
      ∧ ∃ p2, (fillForm_loop s fields n).1.page = some p2
          ∧ p2.isOpen = true ∧ p2.dom = p.dom
          ∧ p2.typed = p.typed ++ fields.filterMap (fun f => fieldFillEntry p.dom f) := by
  intro fields
  induction fields with
  | nil =>
    intro s p n hp ho
    exact ⟨by simp [fillForm_loop], ⟨p, by simpa [fillForm_loop] using hp, ho, rfl,
      by simp [fillForm_loop]⟩⟩
  | cons f rest ih =>
    intro s p n hp ho
    obtain ⟨hb, p1, hpage1, hopen1, hdom1, htyped1⟩ :=
      fillForm_tryField_spec f.selectors s p f.value hp ho
    rcases hrun : fillForm_tryField s f.selectors f.value with ⟨s1, b⟩
    have hb2 : b = f.selectors.any (fun c => actionableIn p.dom c) := by
      rw [← hb, hrun]
    have hpage1b : s1.page = some p1 := by
      rw [hrun] at hpage1
      exact hpage1
    have hentry : fieldFillEntry p.dom f =
        (f.selectors.find? (fun c => actionableIn p.dom c)).map
          (fun sel => (sel, f.value)) := rfl
    cases hres : resolvableField p.dom f with
    | true =>
      have hany : f.selectors.any (fun c => actionableIn p.dom c) = true := by
        simpa [resolvableField] using hres
      have hb3 : b = true := hb2.trans hany
      subst hb3
      have hstep : fillForm_loop s (f :: rest) n = fillForm_loop s1 rest (n + 1) := by
        rw [fillForm_loop, hrun]
      obtain ⟨hcount, p2, hpage2, hopen2, hdom2, htyped2⟩ := ih s1 p1 (n + 1) hpage1b hopen1
      rw [hdom1] at hcount htyped2
      have hc : (f :: rest).countP (fun f => resolvableField p.dom f) =
          rest.countP (fun f => resolvableField p.dom f) + 1 := by
        simp [List.countP_cons, hres]
      constructor
      · rw [hstep, hcount, hc]
        omega
      · refine ⟨p2, by rw [hstep]; exact hpage2, hopen2, hdom2.trans hdom1, ?_⟩
        rw [htyped2, htyped1, List.filterMap_cons, hentry]
        cases hfind : f.selectors.find? (fun c => actionableIn p.dom c) with
        | none =>
          exfalso
          obtain ⟨x, hx, hax⟩ := List.any_eq_true.mp hany
          have hnone := List.find?_eq_none.mp hfind x hx
          rw [hax] at hnone
          exact hnone rfl
        | some m => simp
    | false =>
      have hany : f.selectors.any (fun c => actionableIn p.dom c) = false := by
        simpa [resolvableField] using hres
      have hb3 : b = false := hb2.trans hany
      subst hb3
      have hstep : fillForm_loop s (f :: rest) n = fillForm_loop s1 rest n := by
        rw [fillForm_loop, hrun]
      obtain ⟨hcount, p2, hpage2, hopen2, hdom2, htyped2⟩ := ih s1 p1 n hpage1b hopen1
      rw [hdom1] at hcount htyped2
      have hc : (f :: rest).countP (fun f => resolvableField p.dom f) =
          rest.countP (fun f => resolvableField p.dom f) := by
        simp [List.countP_cons, hres]
      constructor
      · rw [hstep, hcount, hc]
      · refine ⟨p2, by rw [hstep]; exact hpage2, hopen2, hdom2.trans hdom1, ?_⟩
        rw [htyped2, htyped1, List.filterMap_cons, hentry]
        have hfn : f.selectors.find? (fun c => actionableIn p.dom c) = none := by
          cases hfind : f.selectors.find? (fun c => actionableIn p.dom c) with
          | none => rfl
          | some m =>
            have hpm := List.find?_some hfind
            have hT : f.selectors.any (fun c => actionableIn p.dom c) = true :=
              List.any_eq_true.mpr ⟨m, List.mem_of_find?_eq_some hfind, hpm⟩
            rw [hany] at hT
            simp at hT
        rw [hfn]
        simp

/-- C3: for every FormField sequence of size N in which exactly K fields
have at least one resolvable selector, `fill_form` fills exactly those K
fields (the typed log grows by exactly the K entries of the resolvable
fields, in order, so a failing field leaves the remaining fields
unaffected) and returns the `Filled K/N` fraction; the batch is never
aborted. -/
theorem fillForm_partial_fill (s : EngineState) (p : PageState) (fields : List FormField)
    (hp : s.page = some p) (ho : p.isOpen = true) :
    (fillForm_execute s fields).2 =
      "Filled " ++ toString (fields.countP (fun f => resolvableField p.dom f)) ++ "/"
        ++ toString fields.length ++ " form fields"
    ∧ ∃ p2, (fillForm_execute s fields).1.page = some p2
        ∧ p2.typed = p.typed ++ fields.filterMap (fun f => fieldFillEntry p.dom f) := by
  obtain ⟨hcount, p2, hpage, _, _, htyped⟩ := fillForm_loop_spec fields s p 0 hp ho
  rcases hrun : fillForm_loop s fields 0 with ⟨s1, k⟩
  have hk : k = fields.countP (fun f => resolvableField p.dom f) := by
    rw [hrun] at hcount
    simpa using hcount
  have hpage2 : s1.page = some p2 := by
    rw [hrun] at hpage
    exact hpage
  have hfe : fillForm_execute s fields =
      (s1, "Filled " ++ toString k ++ "/" ++ toString fields.length ++ " form fields") := by
    simp [fillForm_execute, hrun]
  constructor
  · rw [hfe, hk]
  · exact ⟨p2, by rw [hfe]; exact hpage2, htyped⟩

/-- Witness for C3: of two fields, exactly the first resolves; the tool
reports `Filled 1/2 form fields`. -/
theorem fillForm_partial_fill_witness :
    (fillForm_execute st0 fields0).2 = "Filled 1/2 form fields" :=
  ((fillForm_partial_fill st0 (freshPage dom0) fields0 (by decide) (by decide)).1).trans
    (by decide)

/-! ## scroll_page, take_screenshot, close_browser, constructor defaults -/

/-- C5: `scroll_page` maps each direction to a signed 2-D pixel delta —
down:(0,+a), up:(0,-a), right:(+a,0), left:(-a,0) — including the four
concrete instances of the spec, and issues exactly that delta as a wheel
scroll on the live page. -/
theorem scrollPage_direction_mapping (s : EngineState) (p : PageState)
    (direction : ScrollDirection) (amount : Int)
    (hp : s.page = some p) (ho : p.isOpen = true) :
    (∀ a : Int, scrollMap ScrollDirection.down a = (0, a)
      ∧ scrollMap ScrollDirection.up a = (0, -a)
      ∧ scrollMap ScrollDirection.right a = (a, 0)
      ∧ scrollMap ScrollDirection.left a = (-a, 0))
    ∧ scrollMap ScrollDirection.down 500 = (0, 500)
    ∧ scrollMap ScrollDirection.left 300 = (-300, 0)
    ∧ scrollMap ScrollDirection.up 200 = (0, -200)
    ∧ scrollMap ScrollDirection.right 400 = (400, 0)
    ∧ (∃ p2, (scrollPage_execute s direction amount).1.page = some p2
        ∧ p2.wheels = p.wheels ++ [scrollMap direction amount])
    ∧ (scrollPage_execute s direction amount).2 =
        "Scrolled " ++ direction.asString ++ " by " ++ toString amount ++ "px" := by
  rcases hmap : scrollMap direction amount with ⟨x, y⟩
  have hexec : scrollPage_execute s direction amount =
      ({ s with page := some { p with wheels := p.wheels ++ [(x, y)] } },
       "Scrolled " ++ direction.asString ++ " by " ++ toString amount ++ "px") := by
    rw [scrollPage_execute, hmap]
    simp [pageWheel, hp, ho]
  refine ⟨fun a => ⟨rfl, rfl, rfl, rfl⟩, by decide, by decide, by decide, by decide, ?_, ?_⟩
  · exact ⟨{ p with wheels := p.wheels ++ [(x, y)] }, by rw [hexec], by simp [hmap]⟩
  · rw [hexec]

/-- Witness for C5: scrolling left by 300 issues delta (−300, 0) and
reports the scroll. -/
theorem scrollPage_direction_mapping_witness :
    (scrollPage_execute st0 ScrollDirection.left 300).2 = "Scrolled left by 300px" := by
  have h := scrollPage_direction_mapping st0 (freshPage dom0) ScrollDirection.left 300
    (by decide) (by decide)
  exact h.2.2.2.2.2.2.trans (by decide)

/-- Counterexample for C6: the claim's filename rule ("the given name, or
the literal screenshot when the name is absent") fails at the present but
empty name, where the code also falls back to `screenshot`; and the tool
returns a success message containing the filename, not the bare filename. -/
theorem takeScreenshot_empty_name_counterexample :
    screenshotFilename (some "") (tsReplace "2024-01-01T00:00:00.000Z")
        ≠ claimedScreenshotFilename (some "") "2024-01-01T00:00:00.000Z"
    ∧ (takeScreenshot_execute cfg0 st0 (some "signup") "2024-01-01T00:00:00.000Z").2
        ≠ "signup-2024-01-01T00-00-00-000Z.png" :=
  ⟨by decide, by decide⟩

/-- C6 (amended): `take_screenshot` builds the filename from the given name
when it is present and non-empty — and from the literal `screenshot` when
the name is absent **or empty** — followed by a hyphen, the ISO-8601
timestamp with every `:` and `.` replaced by `-`, and `.png`; it saves a
viewport (`fullPage := false`) capture under the configured directory and
returns a success message naming that file (`Screenshot saved as <file>`);
in particular `signup` at `2024-01-01T00:00:00.000Z` yields
`signup-2024-01-01T00-00-00-000Z.png`. -/
theorem takeScreenshot_filename_spec (cfg : EngineConfig) (s : EngineState) (p : PageState)
    (name : Option String) (nowISO : String)
    (hp : s.page = some p) (ho : p.isOpen = true) :
    (takeScreenshot_execute cfg s name nowISO).2 =
      "Screenshot saved as " ++ screenshotFilename name (tsReplace nowISO)
    ∧ (∃ p2, (takeScreenshot_execute cfg s name nowISO).1.page = some p2
        ∧ p2.shots = p.shots ++
            [(cfg.screenshotPath ++ "/" ++ screenshotFilename name (tsReplace nowISO), false)])
    ∧ (∀ n : String, n ≠ "" →
        screenshotFilename (some n) (tsReplace nowISO) = n ++ "-" ++ tsReplace nowISO ++ ".png")
    ∧ screenshotFilename none (tsReplace nowISO) = "screenshot-" ++ tsReplace nowISO ++ ".png"
    ∧ screenshotFilename (some "") (tsReplace nowISO) = "screenshot-" ++ tsReplace nowISO ++ ".png"
    ∧ screenshotFilename (some "signup") (tsReplace "2024-01-01T00:00:00.000Z")
        = "signup-2024-01-01T00-00-00-000Z.png" := by
  have hshot := pageScreenshot_ready s p
    (cfg.screenshotPath ++ "/" ++ screenshotFilename name (tsReplace nowISO)) false hp ho
  have hexec : takeScreenshot_execute cfg s name nowISO =
      ({ s with page := some { p with shots := p.shots ++
          [(cfg.screenshotPath ++ "/" ++ screenshotFilename name (tsReplace nowISO), false)] } },
       "Screenshot saved as " ++ screenshotFilename name (tsReplace nowISO)) := by
    simp [takeScreenshot_execute, hshot]
  refine ⟨by rw [hexec], ?_, ?_, rfl, by simp [screenshotFilename], by decide⟩
  · exact ⟨{ p with shots := p.shots ++
      [(cfg.screenshotPath ++ "/" ++ screenshotFilename name (tsReplace nowISO), false)] },
      by rw [hexec], rfl⟩
  · intro n hn
    simp [screenshotFilename, hn]

/-- Witness for C6 (amended): the scenario of the spec, with the success
message naming the file. -/
theorem takeScreenshot_filename_spec_witness :
    (takeScreenshot_execute cfg0 st0 (some "signup") "2024-01-01T00:00:00.000Z").2 =
      "Screenshot saved as signup-2024-01-01T00-00-00-000Z.png" := by
  have h := takeScreenshot_filename_spec cfg0 st0 (freshPage dom0) (some "signup")
    "2024-01-01T00:00:00.000Z" (by decide) (by decide)
  exact h.1.trans (by decide)

/-- Counterexample for C8: in the Closed state (browser handle present but
disconnected) the `close_browser` tool still invokes `browser.close()` —
the guard `if (this.browser)` checks only that the handle exists, not
connectivity; `cleanup` is the method that checks `isConnected()`. -/
theorem closeBrowser_no_connectivity_check :
    closedState.browser = some { connected := false }
    ∧ (closeBrowser_execute closedState).closeCalled = true
    ∧ (cleanup closedState).2 = false :=
  ⟨by decide, by decide, by decide⟩

/-- C8 (amended): the close operation is idempotent — it checks that a
browser handle exists (not connectivity; that check lives in `cleanup`)
before invoking `browser.close()`, invoking it twice never raises (both
calls are total and return normally), the second call leaves the state
unchanged (closing an already-closed browser is a no-op), and it returns
the success text in every state, so closing an already-closed or
never-opened browser is reported as success. -/
theorem closeBrowser_idempotent_close (s : EngineState) :
    (closeBrowser_execute s).result = "Browser closed successfully"
    ∧ (closeBrowser_execute (closeBrowser_execute s).state).result =
        "Browser closed successfully"
    ∧ (closeBrowser_execute (closeBrowser_execute s).state).state =
        (closeBrowser_execute s).state
    ∧ (closeBrowser_execute s).closeCalled = s.browser.isSome
    ∧ (cleanup s).2 = (match s.browser with | some b => b.connected | none => false) := by
  rcases s with ⟨bOpt, pOpt⟩
  cases bOpt with
  | none => cases pOpt <;> simp [closeBrowser_execute, browserCloseAll, cleanup]
  | some b =>
    cases b with
    | mk conn =>
      cases conn <;> cases pOpt <;>
        simp [closeBrowser_execute, browserCloseAll, cleanup]

/-- `options.x || default` never yields zero when the default is nonzero. -/
theorem jsOrNum_ne_zero (v : Option Int) (d : Int) (hd : d ≠ 0) : jsOrNum v d ≠ 0 := by
  cases v with
  | none => simpa [jsOrNum] using hd
  | some x =>
    by_cases hx : x = 0
    · simpa [jsOrNum, hx] using hd
    · simp [jsOrNum, hx]

/-- C10: a falsy supplied value for `slowMo`, `timeout` or
`screenshotPath` (zero, the empty string, or an absent option) is silently
replaced by the default (1000, 30000, `./screenshots`), so a zero
slow-motion delay or zero page timeout cannot be configured: the resulting
configuration never carries `slowMo = 0` or `timeout = 0`. -/
theorem constructor_falsy_defaults (options : EngineOptions) :
    (WebAutomationEngine_constructor { options with slowMo := some 0 }).slowMo = 1000
    ∧ (WebAutomationEngine_constructor { options with timeout := some 0 }).timeout = 30000
    ∧ (WebAutomationEngine_constructor
        { options with screenshotPath := some "" }).screenshotPath = "./screenshots"
    ∧ (WebAutomationEngine_constructor { options with slowMo := none }).slowMo = 1000
    ∧ (WebAutomationEngine_constructor { options with timeout := none }).timeout = 30000
    ∧ (WebAutomationEngine_constructor options).slowMo ≠ 0
    ∧ (WebAutomationEngine_constructor options).timeout ≠ 0 := by
  refine ⟨by simp [WebAutomationEngine_constructor, jsOrNum],
    by simp [WebAutomationEngine_constructor, jsOrNum],
    by simp [WebAutomationEngine_constructor, jsOrString],
    by simp [WebAutomationEngine_constructor, jsOrNum],
    by simp [WebAutomationEngine_constructor, jsOrNum],
    jsOrNum_ne_zero options.slowMo 1000 (by decide),
    jsOrNum_ne_zero options.timeout 30000 (by decide)⟩

/-! ## The bounded turn loop (modelled from the spec, section 4.3) -/

/-- The loop never produces more history entries than its remaining budget
allows. -/
theorem runnerLoop_length_le (oracle : List (String × String) → Decision)
    (dispatch : String → String → String) :
    ∀ (fuel : Nat) (history : List (String × String)),
      (runnerLoop oracle dispatch fuel history).history.length ≤ history.length + fuel := by
  intro fuel
  induction fuel with
  | zero =>
    intro history
    simp [runnerLoop, RunOutcome.history]
  | succ n ih =>
    intro history
    rw [runnerLoop]
    cases oracle history with
    | finalAnswer a => simp [RunOutcome.history]
    | toolCall nm ps =>
      dsimp only
      have h := ih (history ++ [(nm, dispatch nm ps)])
      simp only [List.length_append, List.length_cons, List.length_nil] at h
      omega

/-- The loop ends in `Completed` or `Aborted` (it always terminates: it is
a total function of its fuel). -/
theorem runnerLoop_terminates (oracle : List (String × String) → Decision)
    (dispatch : String → String → String) (fuel : Nat) (history : List (String × String)) :
    (∃ a h, runnerLoop oracle dispatch fuel history = RunOutcome.Completed a h)
    ∨ (∃ h, runnerLoop oracle dispatch fuel history = RunOutcome.Aborted h) := by
  cases hr : runnerLoop oracle dispatch fuel history with
  | Completed a h => exact Or.inl ⟨a, h, rfl⟩
  | Aborted h => exact Or.inr ⟨h, rfl⟩

/-- Against an oracle that emits a tool call at every turn, the loop spends
its whole budget: it aborts with exactly `fuel` additional dispatches. -/
theorem runnerLoop_alwaysTool (oracle : List (String × String) → Decision)
    (dispatch : String → String → String)
    (htool : ∀ h, (oracle h).isToolCall = true) :
    ∀ (fuel : Nat) (history : List (String × String)),
      ∃ h2, runnerLoop oracle dispatch fuel history = RunOutcome.Aborted h2
        ∧ h2.length = history.length + fuel := by
  intro fuel
  induction fuel with
  | zero =>
    intro history
    exact ⟨history, rfl, by simp⟩
  | succ n ih =>
    intro history
    rw [runnerLoop]
    cases hd : oracle history with
    | finalAnswer a =>
      exfalso
      have := htool history
      rw [hd] at this
      simp [Decision.isToolCall] at this
    | toolCall nm ps =>
      obtain ⟨h2, hrun, hlen⟩ := ih (history ++ [(nm, dispatch nm ps)])
      refine ⟨h2, hrun, ?_⟩
      rw [hlen]
      simp
      omega

/-- C2: with a configured turn bound `M > 0`, one run of the orchestration
loop dispatches at most `M` tool-invocation turns and always terminates —
either `Completed` with a final answer or `Aborted` at the bound; against a
reasoning engine that emits a tool call at every turn (so it would emit
`M + 1` or more consecutive tool calls), the run aborts after exactly `M`
dispatches and no further dispatch occurs. -/
theorem runAutomation_turn_bound (M : Nat) (oracle : List (String × String) → Decision)
    (dispatch : String → String → String) (hM : 0 < M) :
    numDispatches (runAutomation oracle dispatch (some M)) ≤ M
    ∧ ((∃ a h, runAutomation oracle dispatch (some M) = RunOutcome.Completed a h)
        ∨ (∃ h, runAutomation oracle dispatch (some M) = RunOutcome.Aborted h))
    ∧ ((∀ h, (oracle h).isToolCall = true) →
        ∃ h2, runAutomation oracle dispatch (some M) = RunOutcome.Aborted h2
          ∧ h2.length = M) := by
  have hM2 : runAutomation_maxTurns (some M) = M := by
    simp [runAutomation_maxTurns, Nat.pos_iff_ne_zero.mp hM]
  refine ⟨?_, ?_, ?_⟩
  · have h := runnerLoop_length_le oracle dispatch (runAutomation_maxTurns (some M)) []
    rw [hM2] at h
    simpa [runAutomation, hM2, numDispatches] using h
  · rw [runAutomation]
    exact runnerLoop_terminates oracle dispatch (runAutomation_maxTurns (some M)) []
  · intro htool
    obtain ⟨h2, hrun, hlen⟩ :=
      runnerLoop_alwaysTool oracle dispatch htool (runAutomation_maxTurns (some M)) []
    refine ⟨h2, ?_, ?_⟩
    · rw [runAutomation]
      exact hrun
    · rw [hlen, hM2]
      simp

/-- Witness for C2: with `maxTurns = 25` and a reasoning engine that emits
a tool call at every turn, the run aborts with exactly 25 dispatches — no
26th dispatch occurs. -/
theorem runAutomation_turn_bound_witness :
    numDispatches (runAutomation oracle0 dispatch0 (some 25)) ≤ 25
    ∧ ((∃ a h, runAutomation oracle0 dispatch0 (some 25) = RunOutcome.Completed a h)
        ∨ (∃ h, runAutomation oracle0 dispatch0 (some 25) = RunOutcome.Aborted h))
    ∧ ((∀ h, (oracle0 h).isToolCall = true) →
        ∃ h2, runAutomation oracle0 dispatch0 (some 25) = RunOutcome.Aborted h2
          ∧ h2.length = 25) :=
  runAutomation_turn_bound 25 oracle0 dispatch0 (by decide)

/-! ## analyze_form: condensed, capped summaries -/

/-- `s || ''` is the identity on strings. -/
theorem jsOrString_empty_default (s : String) : jsOrString (some s) "" = s := by
  by_cases h : s = "" <;> simp [jsOrString, h]

/-- C7: `analyze_form` returns a condensed summary: inputs are filtered to
the currently visible ones and capped at 10 (on a page with 15 visible
inputs, exactly 10 are returned), every returned input stems from a visible
input of the page, buttons are filtered to visible ones, capped at 5, with
text truncated to at most 50 characters, and links are filtered to those
with non-empty display text shorter than 50 characters and capped at 10. -/
theorem analyzeForm_condensed (d : Dom) :
    (analyzeForm_evaluate d).inputs.length
        = min (d.inputs.filter (fun i => i.visible)).length 10
    ∧ (∀ i ∈ (analyzeForm_evaluate d).inputs, ∃ e ∈ d.inputs, e.visible = true
        ∧ i.name = e.name ∧ i.id = e.id ∧ i.placeholder = e.placeholder)
    ∧ ((d.inputs.filter (fun i => i.visible)).length = 15 →
        (analyzeForm_evaluate d).inputs.length = 10)
    ∧ (analyzeForm_evaluate d).buttons.length
        = min (d.buttons.filter (fun b => b.visible)).length 5
    ∧ (∀ b ∈ (analyzeForm_evaluate d).buttons, b.text.length ≤ 50)
    ∧ (analyzeForm_evaluate d).links.length ≤ 10
    ∧ (∀ l ∈ (analyzeForm_evaluate d).links, 0 < l.text.length ∧ l.text.length < 50) := by
  have hlen : (analyzeForm_evaluate d).inputs.length
      = min (d.inputs.filter (fun i => i.visible)).length 10 := by
    simp [analyzeForm_evaluate, Nat.min_comm]
  refine ⟨hlen, ?_, ?_, ?_, ?_, ?_, ?_⟩
  · intro i hi
    obtain ⟨x, hx, rfl⟩ := List.mem_map.mp hi
    have hx2 := List.mem_of_mem_take hx
    obtain ⟨hmem, hvis⟩ := List.mem_filter.mp hx2
    exact ⟨x, hmem, hvis, jsOrString_empty_default x.name,
      jsOrString_empty_default x.id, jsOrString_empty_default x.placeholder⟩
  · intro h15
    rw [hlen, h15]
    decide
  · simp [analyzeForm_evaluate, Nat.min_comm]
  · intro b hb
    obtain ⟨x, hx, rfl⟩ := List.mem_map.mp hb
    exact jsSubstring_length_le (textOrEmpty x.textContent) 50
  · have : (analyzeForm_evaluate d).links.length =
        min 10 (d.links.filter (fun link =>
          let text := textOrEmpty link.textContent
          decide (0 < text.length) && decide (text.length < 50))).length := by
      simp [analyzeForm_evaluate]
    rw [this]
    exact Nat.min_le_left _ _
  · intro l hl
    obtain ⟨x, hx, rfl⟩ := List.mem_map.mp hl
    have hx2 := List.mem_of_mem_take hx
    obtain ⟨_, hpred⟩ := List.mem_filter.mp hx2
    simp only [Bool.and_eq_true, decide_eq_true_eq] at hpred
    exact hpred

/-! ## Lifecycle support: behaviour of every tool off the Ready state -/

/-- On a gone page the click loop exhausts its candidates, touching
nothing. -/
theorem clickElement_loop_gone (s : EngineState) (h : pageGone s = true) :
    ∀ (sels : List String) (description : String),
      clickElement_loop s sels description = (s, "Failed to click " ++ description) := by
  intro sels
  induction sels with
  | nil => intro description; rfl
  | cons c rest ih =>
    intro description
    obtain ⟨e, he⟩ := pageWaitForSelector_gone s c h
    have hstep : clickElement_loop s (c :: rest) description =
        clickElement_loop s rest description := by
      rw [clickElement_loop, he]
    rw [hstep]
    exact ih description

/-- On a gone page the wait loop exhausts its candidates, touching
nothing. -/
theorem waitForElement_execute_gone (s : EngineState) (h : pageGone s = true) :
    ∀ (sels : List String), waitForElement_execute s sels = (s, "No elements found") := by
  intro sels
  induction sels with
  | nil => rfl
  | cons c rest ih =>
    obtain ⟨e, he⟩ := pageWaitForSelector_gone s c h
    have hstep : waitForElement_execute s (c :: rest) = waitForElement_execute s rest := by
      rw [waitForElement_execute, he]
    rw [hstep]
    exact ih

/-- On a gone page no field can be filled. -/
theorem fillForm_tryField_gone (s : EngineState) (h : pageGone s = true) :
    ∀ (sels : List String) (value : String), fillForm_tryField s sels value = (s, false) := by
  intro sels
  induction sels with
  | nil => intro value; rfl
  | cons c rest ih =>
    intro value
    obtain ⟨e, he⟩ := pageWaitForSelector_gone s c h
    have hstep : fillForm_tryField s (c :: rest) value = fillForm_tryField s rest value := by
      rw [fillForm_tryField, he]
    rw [hstep]
    exact ih value

/-- On a gone page the field loop fills nothing and keeps its count. -/
theorem fillForm_loop_gone (s : EngineState) (h : pageGone s = true) :
    ∀ (fields : List FormField) (n : Nat), fillForm_loop s fields n = (s, n) := by
  intro fields
  induction fields with
  | nil => intro n; rfl
  | cons f rest ih =>
    intro n
    have ht := fillForm_tryField_gone s h f.selectors f.value
    have hstep : fillForm_loop s (f :: rest) n = fillForm_loop s rest n := by
      rw [fillForm_loop, ht]
    rw [hstep]
    exact ih n

/-- On a gone page `fill_form` leaves the state untouched. -/
theorem fillForm_execute_gone_state (s : EngineState) (fields : List FormField)
    (h : pageGone s = true) : (fillForm_execute s fields).1 = s := by
  simp [fillForm_execute, fillForm_loop_gone s h fields 0]

/-- On a gone page `open_browser` fails with a navigation error, touching
nothing. -/
theorem openBrowser_execute_gone (s : EngineState) (url : String) (h : pageGone s = true) :
    ∃ e, openBrowser_execute s url = (s, "Navigation failed: " ++ e) := by
  obtain ⟨e, he⟩ := pageGoto_gone s url h
  exact ⟨e, by rw [openBrowser_execute, he]⟩

/-- On a gone page `take_screenshot` fails, touching nothing. -/
theorem takeScreenshot_execute_gone (cfg : EngineConfig) (s : EngineState)
    (name : Option String) (nowISO : String) (h : pageGone s = true) :
    ∃ e, takeScreenshot_execute cfg s name nowISO = (s, "Screenshot failed: " ++ e) := by
  obtain ⟨e, he⟩ := pageScreenshot_gone s
    (cfg.screenshotPath ++ "/" ++ screenshotFilename name (tsReplace nowISO)) false h
  exact ⟨e, by simp [takeScreenshot_execute, he]⟩

/-- On a gone page `analyze_form` returns the error object, touching
nothing. -/
theorem analyzeForm_execute_gone (s : EngineState) (h : pageGone s = true) :
    ∃ e, analyzeForm_execute s = (s, AnalyzeResult.err ("Form analysis failed: " ++ e)) := by
  obtain ⟨e, he⟩ := pageEvaluate_gone s h
  exact ⟨e, by rw [analyzeForm_execute, he]⟩

/-- On a gone page `scroll_page` fails, touching nothing. -/
theorem scrollPage_execute_gone (s : EngineState) (direction : ScrollDirection)
    (amount : Int) (h : pageGone s = true) :
    ∃ e, scrollPage_execute s direction amount = (s, "Scroll failed: " ++ e) := by
  rcases hmap : scrollMap direction amount with ⟨x, y⟩
  obtain ⟨e, he⟩ := pageWheel_gone s x y h
  refine ⟨e, ?_⟩
  rw [scrollPage_execute, hmap]
  dsimp only
  rw [he]

/-- `analyze_form` never changes the engine state. -/
theorem analyzeForm_execute_state (s : EngineState) : (analyzeForm_execute s).1 = s := by
  cases hsp : s.page with
  | none => simp [analyzeForm_execute, pageEvaluate, hsp]
  | some p => cases ho : p.isOpen <;> simp [analyzeForm_execute, pageEvaluate, hsp, ho]

/-- `pageWaitForSelector_ready` with a matching candidate. -/
theorem pageWaitForSelector_ready_ok (s : EngineState) (p : PageState) (sel : String)
    (hp : s.page = some p) (ho : p.isOpen = true) (ha : actionableIn p.dom sel = true) :
    pageWaitForSelector s sel =
      ({ s with page := some { p with waits := p.waits ++ [sel] } }, Except.ok ()) := by
  simp [pageWaitForSelector, hp, ho, ha]

/-- `pageWaitForSelector_ready` with a non-matching candidate. -/
theorem pageWaitForSelector_ready_err (s : EngineState) (p : PageState) (sel : String)
    (hp : s.page = some p) (ho : p.isOpen = true) (ha : actionableIn p.dom sel = false) :
    pageWaitForSelector s sel =
      ({ s with page := some { p with waits := p.waits ++ [sel] } },
       Except.error "Timeout exceeded waiting for selector") := by
  simp [pageWaitForSelector, hp, ho, ha]

/-- On a Ready page, the click loop only rewrites the page (the browser
handle is untouched and the page stays open). -/
theorem clickElement_loop_ready_state :
    ∀ (sels : List String) (s : EngineState) (p : PageState) (description : String),
      s.page = some p → p.isOpen = true →
      ∃ p2, (clickElement_loop s sels description).1 = { s with page := some p2 }
        ∧ p2.isOpen = true := by
  intro sels
  induction sels with
  | nil =>
    intro s p description hp ho
    obtain ⟨b, pg⟩ := s
    cases hp
    exact ⟨p, rfl, ho⟩
  | cons c rest ih =>
    intro s p description hp ho
    have hw := pageWaitForSelector_ready s p c hp ho
    cases hac : actionableIn p.dom c with
    | true =>
      have hc := pageClick_ready_ok { s with page := some { p with waits := p.waits ++ [c] } }
        { p with waits := p.waits ++ [c] } c rfl ho hac
      have h1 : clickElement_loop s (c :: rest) description =
          (match pageClick { s with page := some { p with waits := p.waits ++ [c] } } c with
           | (s2, Except.error _) => clickElement_loop s2 rest description
           | (s2, Except.ok _) =>
             (s2, "Successfully clicked " ++ description ++ " using " ++ c)) := by
        rw [clickElement_loop, pageWaitForSelector_ready_ok s p c hp ho hac]
      have hstep : clickElement_loop s (c :: rest) description =
          ({ s with page := some { p with waits := p.waits ++ [c], clicks := p.clicks ++ [c] } },
           "Successfully clicked " ++ description ++ " using " ++ c) := by
        rw [h1, hc]
      exact ⟨{ p with waits := p.waits ++ [c], clicks := p.clicks ++ [c] },
        by rw [hstep], ho⟩
    | false =>
      have hstep : clickElement_loop s (c :: rest) description =
          clickElement_loop { s with page := some { p with waits := p.waits ++ [c] } }
            rest description := by
        rw [clickElement_loop, pageWaitForSelector_ready_err s p c hp ho hac]
      obtain ⟨p2, hs2, ho2⟩ := ih { s with page := some { p with waits := p.waits ++ [c] } }
        { p with waits := p.waits ++ [c] } description rfl ho
      refine ⟨p2, ?_, ho2⟩
      rw [hstep, hs2]

/-- On a Ready page, the wait loop only rewrites the page. -/
theorem waitForElement_ready_state :
    ∀ (sels : List String) (s : EngineState) (p : PageState),
      s.page = some p → p.isOpen = true →
      ∃ p2, (waitForElement_execute s sels).1 = { s with page := some p2 }
        ∧ p2.isOpen = true := by
  intro sels
  induction sels with
  | nil =>
    intro s p hp ho
    obtain ⟨b, pg⟩ := s
    cases hp
    exact ⟨p, rfl, ho⟩
  | cons c rest ih =>
    intro s p hp ho
    have hw := pageWaitForSelector_ready s p c hp ho
    cases hac : actionableIn p.dom c with
    | true =>
      have hstep : waitForElement_execute s (c :: rest) =
          ({ s with page := some { p with waits := p.waits ++ [c] } },
           "Element found: " ++ c) := by
        rw [waitForElement_execute, pageWaitForSelector_ready_ok s p c hp ho hac]
      exact ⟨{ p with waits := p.waits ++ [c] }, by rw [hstep], ho⟩
    | false =>
      have hstep : waitForElement_execute s (c :: rest) =
          waitForElement_execute { s with page := some { p with waits := p.waits ++ [c] } }
            rest := by
        rw [waitForElement_execute, pageWaitForSelector_ready_err s p c hp ho hac]
      obtain ⟨p2, hs2, ho2⟩ := ih { s with page := some { p with waits := p.waits ++ [c] } }
        { p with waits := p.waits ++ [c] } rfl ho
      refine ⟨p2, ?_, ho2⟩
      rw [hstep, hs2]

/-- On a Ready page, the per-field loop never touches the browser handle. -/
theorem fillForm_tryField_ready_browser :
    ∀ (sels : List String) (s : EngineState) (p : PageState) (value : String),
      s.page = some p → p.isOpen = true →
      (fillForm_tryField s sels value).1.browser = s.browser := by
  intro sels
  induction sels with
  | nil => intro s p value hp ho; rfl
  | cons c rest ih =>
    intro s p value hp ho
    have hw := pageWaitForSelector_ready s p c hp ho
    cases hac : actionableIn p.dom c with
    | true =>
      simp [fillForm_tryField, pageWaitForSelector, pageClick, pagePress, pageType,
        hp, ho, hac]
    | false =>
      have hstep : fillForm_tryField s (c :: rest) value =
          fillForm_tryField { s with page := some { p with waits := p.waits ++ [c] } }
            rest value := by
        rw [fillForm_tryField, hw, hac]
        rfl
      rw [hstep]
      exact ih { s with page := some { p with waits := p.waits ++ [c] } }
        { p with waits := p.waits ++ [c] } value rfl ho

/-- On a Ready page, the field loop never touches the browser handle. -/
theorem fillForm_loop_ready_browser :
    ∀ (fields : List FormField) (s : EngineState) (p : PageState) (n : Nat),
      s.page = some p → p.isOpen = true →
      (fillForm_loop s fields n).1.browser = s.browser := by
  intro fields
  induction fields with
  | nil => intro s p n hp ho; rfl
  | cons f rest ih =>
    intro s p n hp ho
    obtain ⟨hb, p1, hpage1, hopen1, hdom1, htyped1⟩ :=
      fillForm_tryField_spec f.selectors s p f.value hp ho
    have hbr := fillForm_tryField_ready_browser f.selectors s p f.value hp ho
    rcases hrun : fillForm_tryField s f.selectors f.value with ⟨s1, b⟩
    rw [hrun] at hpage1 hbr
    have hpage1b : s1.page = some p1 := hpage1
    have hbr1 : s1.browser = s.browser := hbr
    cases b with
    | true =>
      have hstep : fillForm_loop s (f :: rest) n = fillForm_loop s1 rest (n + 1) := by
        rw [fillForm_loop, hrun]
      rw [hstep, ih s1 p1 (n + 1) hpage1b hopen1]
      exact hbr1
    | false =>
      have hstep : fillForm_loop s (f :: rest) n = fillForm_loop s1 rest n := by
        rw [fillForm_loop, hrun]
      rw [hstep, ih s1 p1 n hpage1b hopen1]
      exact hbr1

/-- `page.goto` on a Ready page records the navigation. -/
theorem pageGoto_ready (s : EngineState) (p : PageState) (url : String)
    (hp : s.page = some p) (ho : p.isOpen = true) :
    pageGoto s url =
      ({ s with page := some { p with navs := p.navs ++ [url] } }, Except.ok ()) := by
  simp [pageGoto, hp, ho]

/-- `open_browser` on a Ready page only records the navigation. -/
theorem openBrowser_ready_state (s : EngineState) (p : PageState) (url : String)
    (hp : s.page = some p) (ho : p.isOpen = true) :
    (openBrowser_execute s url).1 =
      { s with page := some { p with navs := p.navs ++ [url] } } := by
  have ht : pageTitle { s with page := some { p with navs := p.navs ++ [url] } } =
      ({ s with page := some { p with navs := p.navs ++ [url] } },
       Except.ok p.dom.title) := by
    simp [pageTitle, ho]
  rw [openBrowser_execute, pageGoto_ready s p url hp ho]
  dsimp only
  rw [ht]

/-- `take_screenshot` on a Ready page only records the written file. -/
theorem takeScreenshot_ready_state (cfg : EngineConfig) (s : EngineState) (p : PageState)
    (name : Option String) (nowISO : String)
    (hp : s.page = some p) (ho : p.isOpen = true) :
    (takeScreenshot_execute cfg s name nowISO).1 =
      { s with page := some { p with shots := p.shots ++
          [(cfg.screenshotPath ++ "/" ++ screenshotFilename name (tsReplace nowISO), false)] } } := by
  have hshot := pageScreenshot_ready s p
    (cfg.screenshotPath ++ "/" ++ screenshotFilename name (tsReplace nowISO)) false hp ho
  simp [takeScreenshot_execute, hshot]

/-- `scroll_page` on a Ready page only records the wheel delta. -/
theorem scrollPage_ready_state (s : EngineState) (p : PageState)
    (direction : ScrollDirection) (amount : Int)
    (hp : s.page = some p) (ho : p.isOpen = true) :
    (scrollPage_execute s direction amount).1 =
      { s with page := some { p with wheels := p.wheels ++ [scrollMap direction amount] } } := by
  rcases hmap : scrollMap direction amount with ⟨x, y⟩
  rw [scrollPage_execute, hmap]
  dsimp only
  rw [pageWheel_ready s p x y hp ho]

/-- Rewriting `isOpen := false` on an already-closed page is the
identity. -/
theorem pageState_closed_update (p : PageState) (hpo : p.isOpen = false) :
    { p with isOpen := false } = p := by
  cases p
  simp_all

/-- The lifecycle facts common to both non-Ready states (Uninitialized and
Closed), given that every page operation is doomed and every non-launch
operation is a no-op there. -/
theorem lifecycle_nonready_aux (cfg : EngineConfig) (s : EngineState) (op : Op)
    (hgone : pageGone s = true)
    (hnoop : ∀ op2 : Op, op2.isLaunch = false → stepState cfg s op2 = s)
    (hnr : sessionState s ≠ SessionState.Ready)
    (hclose : (closeBrowser_execute s).result = "Browser closed successfully") :
    (sessionState (stepState cfg s op) = SessionState.Ready →
      sessionState s = SessionState.Ready ∨ op.isLaunch = true)
    ∧ (sessionState s = SessionState.Ready →
        sessionState (stepState cfg s op) = SessionState.Closed → op.isClose = true)
    ∧ (sessionState s ≠ SessionState.Ready → op.isLaunch = false → stepState cfg s op = s)
    ∧ (sessionState s ≠ SessionState.Ready →
        (∀ url, ∃ e, (openBrowser_execute s url).2 = "Navigation failed: " ++ e)
        ∧ (∀ selectors description, (clickElement_execute s selectors description).2 =
            "Failed to click " ++ description)
        ∧ (∀ selectors, (waitForElement_execute s selectors).2 = "No elements found")
        ∧ (∀ fields, (fillForm_loop s fields 0).2 = 0)
        ∧ (∀ name nowISO, ∃ e, (takeScreenshot_execute cfg s name nowISO).2 =
            "Screenshot failed: " ++ e)
        ∧ (∃ e, (analyzeForm_execute s).2 = AnalyzeResult.err ("Form analysis failed: " ++ e))
        ∧ (∀ direction amount, ∃ e, (scrollPage_execute s direction amount).2 =
            "Scroll failed: " ++ e))
    ∧ (closeBrowser_execute s).result = "Browser closed successfully" := by
  refine ⟨?_, ?_, ?_, ?_, hclose⟩
  · intro hready
    cases hL : op.isLaunch with
    | true => exact Or.inr rfl
    | false =>
      rw [hnoop op hL] at hready
      exact Or.inl hready
  · intro hR _
    exact absurd hR hnr
  · intro _ hL
    exact hnoop op hL
  · intro _
    refine ⟨?_, ?_, ?_, ?_, ?_, ?_, ?_⟩
    · intro url
      obtain ⟨e, he⟩ := openBrowser_execute_gone s url hgone
      exact ⟨e, by rw [he]⟩
    · intro selectors description
      rw [clickElement_execute, clickElement_loop_gone s hgone selectors description]
    · intro selectors
      rw [waitForElement_execute_gone s hgone selectors]
    · intro fields
      rw [fillForm_loop_gone s hgone fields 0]
    · intro name nowISO
      obtain ⟨e, he⟩ := takeScreenshot_execute_gone cfg s name nowISO hgone
      exact ⟨e, by rw [he]⟩
    · obtain ⟨e, he⟩ := analyzeForm_execute_gone s hgone
      exact ⟨e, by rw [he]⟩
    · intro direction amount
      obtain ⟨e, he⟩ := scrollPage_execute_gone s direction amount hgone
      exact ⟨e, by rw [he]⟩

/-- Counterexample for C9: Closed is not terminal — calling `initialize`
on a closed engine relaunches the browser and reaches Ready again; nothing
in the code prevents re-initialization after close. -/
theorem lifecycle_closed_not_terminal :
    EngineState.wf closedState = true
    ∧ sessionState closedState = SessionState.Closed
    ∧ sessionState (stepState cfg0 closedState (Op.opLaunch dom0)) = SessionState.Ready :=
  ⟨by decide, by decide, by decide⟩

/-- C9 (amended): over well-formed engine states, only `initialize`
produces Ready from a non-Ready state; from Ready, only
`close_browser`/`cleanup` reach Closed; Closed (and Uninitialized) is
preserved by every operation except `initialize`, which relaunches the
browser and returns to Ready; when the state is not Ready, every operation
other than `initialize` and close is a complete no-op on the engine state
and returns its failure result (navigation/screenshot/scroll/analysis
errors, exhausted selector loops, a fill count of zero) without raising —
the underlying page errors are caught at each tool boundary; and close is
safe in any state, reporting success even when no browser was ever
opened. -/
theorem lifecycle_state_machine (cfg : EngineConfig) (s : EngineState) (op : Op)
    (hwf : s.wf = true) :
    (sessionState (stepState cfg s op) = SessionState.Ready →
      sessionState s = SessionState.Ready ∨ op.isLaunch = true)
    ∧ (sessionState s = SessionState.Ready →
        sessionState (stepState cfg s op) = SessionState.Closed → op.isClose = true)
    ∧ (sessionState s ≠ SessionState.Ready → op.isLaunch = false → stepState cfg s op = s)
    ∧ (sessionState s ≠ SessionState.Ready →
        (∀ url, ∃ e, (openBrowser_execute s url).2 = "Navigation failed: " ++ e)
        ∧ (∀ selectors description, (clickElement_execute s selectors description).2 =
            "Failed to click " ++ description)
        ∧ (∀ selectors, (waitForElement_execute s selectors).2 = "No elements found")
        ∧ (∀ fields, (fillForm_loop s fields 0).2 = 0)
        ∧ (∀ name nowISO, ∃ e, (takeScreenshot_execute cfg s name nowISO).2 =
            "Screenshot failed: " ++ e)
        ∧ (∃ e, (analyzeForm_execute s).2 = AnalyzeResult.err ("Form analysis failed: " ++ e))
        ∧ (∀ direction amount, ∃ e, (scrollPage_execute s direction amount).2 =
            "Scroll failed: " ++ e))
    ∧ (closeBrowser_execute s).result = "Browser closed successfully" := by
  obtain ⟨bOpt, pOpt⟩ := s
  cases bOpt with
  | none =>
    cases pOpt with
    | some p => simp [EngineState.wf] at hwf
    | none =>
      have hgone : pageGone { browser := none, page := none } = true := rfl
      have hnoop : ∀ op2 : Op, op2.isLaunch = false →
          stepState cfg { browser := none, page := none } op2 =
            { browser := none, page := none } := by
        intro op2 hL
        cases op2 with
        | opLaunch d => simp [Op.isLaunch] at hL
        | opOpenBrowser url =>
          obtain ⟨e, he⟩ := openBrowser_execute_gone _ url hgone
          simp [stepState, he]
        | opTakeScreenshot name nowISO =>
          obtain ⟨e, he⟩ := takeScreenshot_execute_gone cfg _ name nowISO hgone
          simp [stepState, he]
        | opClickElement selectors description =>
          simp [stepState, clickElement_execute,
            clickElement_loop_gone _ hgone selectors description]
        | opFillForm fields =>
          simp [stepState, fillForm_execute_gone_state _ fields hgone]
        | opAnalyzeForm => simp [stepState, analyzeForm_execute_state]
        | opWaitForElement selectors =>
          simp [stepState, waitForElement_execute_gone _ hgone selectors]
        | opScrollPage direction amount =>
          obtain ⟨e, he⟩ := scrollPage_execute_gone _ direction amount hgone
          simp [stepState, he]
        | opCloseBrowser => rfl
        | opCleanup => rfl
      exact lifecycle_nonready_aux cfg _ op hgone hnoop (by simp [sessionState]) rfl
  | some b =>
    obtain ⟨conn⟩ := b
    cases pOpt with
    | none => simp [EngineState.wf] at hwf
    | some p =>
      have hob : p.isOpen = conn := by simpa [EngineState.wf] using hwf
      cases conn with
      | false =>
        have ho : p.isOpen = false := hob
        have hgone : pageGone
            { browser := some { connected := false }, page := some p } = true := by
          simp [pageGone, ho]
        have hnoop : ∀ op2 : Op, op2.isLaunch = false →
            stepState cfg { browser := some { connected := false }, page := some p } op2 =
              { browser := some { connected := false }, page := some p } := by
          intro op2 hL
          cases op2 with
          | opLaunch d => simp [Op.isLaunch] at hL
          | opOpenBrowser url =>
            obtain ⟨e, he⟩ := openBrowser_execute_gone _ url hgone
            simp [stepState, he]
          | opTakeScreenshot name nowISO =>
            obtain ⟨e, he⟩ := takeScreenshot_execute_gone cfg _ name nowISO hgone
            simp [stepState, he]
          | opClickElement selectors description =>
            simp [stepState, clickElement_execute,
              clickElement_loop_gone _ hgone selectors description]
          | opFillForm fields =>
            simp [stepState, fillForm_execute_gone_state _ fields hgone]
          | opAnalyzeForm => simp [stepState, analyzeForm_execute_state]
          | opWaitForElement selectors =>
            simp [stepState, waitForElement_execute_gone _ hgone selectors]
          | opScrollPage direction amount =>
            obtain ⟨e, he⟩ := scrollPage_execute_gone _ direction amount hgone
            simp [stepState, he]
          | opCloseBrowser =>
            simp [stepState, closeBrowser_execute, browserCloseAll,
              pageState_closed_update p ho]
          | opCleanup => simp [stepState, cleanup]
        exact lifecycle_nonready_aux cfg _ op hgone hnoop (by simp [sessionState]) rfl
      | true =>
        have ho : p.isOpen = true := hob
        refine ⟨?_, ?_, ?_, ?_, rfl⟩
        · intro _
          exact Or.inl (by simp [sessionState])
        · intro _ hclosed
          cases op with
          | opLaunch d => simp [stepState, engineLaunch, sessionState] at hclosed
          | opCloseBrowser => rfl
          | opCleanup => rfl
          | opOpenBrowser url =>
            simp only [stepState] at hclosed
            rw [openBrowser_ready_state _ p url rfl ho] at hclosed
            simp [sessionState] at hclosed
          | opTakeScreenshot name nowISO =>
            simp only [stepState] at hclosed
            rw [takeScreenshot_ready_state cfg _ p name nowISO rfl ho] at hclosed
            simp [sessionState] at hclosed
          | opClickElement selectors description =>
            simp only [stepState, clickElement_execute] at hclosed
            obtain ⟨p2, hs2, _⟩ := clickElement_loop_ready_state selectors
              { browser := some { connected := true }, page := some p } p description rfl ho
            rw [hs2] at hclosed
            simp [sessionState] at hclosed
          | opFillForm fields =>
            simp only [stepState] at hclosed
            have hfb := fillForm_loop_ready_browser fields
              { browser := some { connected := true }, page := some p } p 0 rfl ho
            rcases hrun : fillForm_loop
              { browser := some { connected := true }, page := some p } fields 0 with ⟨s1, k⟩
            rw [hrun] at hfb
            have hfe : (fillForm_execute
                { browser := some { connected := true }, page := some p } fields).1 = s1 := by
              simp [fillForm_execute, hrun]
            rw [hfe] at hclosed
            have hfb2 : s1.browser = some { connected := true } := hfb
            simp [sessionState, hfb2] at hclosed
          | opAnalyzeForm =>
            simp only [stepState] at hclosed
            rw [analyzeForm_execute_state] at hclosed
            simp [sessionState] at hclosed
          | opWaitForElement selectors =>
            simp only [stepState] at hclosed
            obtain ⟨p2, hs2, _⟩ := waitForElement_ready_state selectors
              { browser := some { connected := true }, page := some p } p rfl ho
            rw [hs2] at hclosed
            simp [sessionState] at hclosed
          | opScrollPage direction amount =>
            simp only [stepState] at hclosed
            rw [scrollPage_ready_state _ p direction amount rfl ho] at hclosed
            simp [sessionState] at hclosed
        · intro hnr _
          exact absurd (by simp [sessionState]) hnr
        · intro hnr
          exact absurd (by simp [sessionState]) hnr

/-- Witness for C9: the amended theorem at the concrete Closed state with
the close operation. -/
theorem lifecycle_state_machine_witness :
    (closeBrowser_execute closedState).result = "Browser closed successfully" :=
  (lifecycle_state_machine cfg0 closedState Op.opCloseBrowser (by decide)).2.2.2.2
